import Mathlib

/-!
# Verification of the `autowired` dependency-injection core

Shallow embedding of `autowired/_container.py` and `autowired/_context.py`
(current revision, the one with list injection and per-field locks).

Python runtime features are modelled as follows:

* Python types (classes and the generic aliases `list[E]`, `tuple[E, ...]`,
  fixed-arity `tuple[...]`) become the inductive `Ty`.  A `ClassTable` maps
  class names to their module, base classes and own `__init__` signature,
  standing in for the runtime type metadata that `inspect` reads.
* Object identity is modelled by allocation: every constructor call creates
  a fresh numeric id, recorded in a heap together with the type and the
  keyword arguments the constructor received.
* Exceptions become an `Err` sum carried in `Except`; Python exceptions do
  not roll back mutations, so every operation returns the state it reached
  even on error (`Except Err α × St`).
* Recursion in `resolve`/`autowire` (which can diverge on cyclic
  dependencies) is bounded by explicit fuel; `Err.outOfFuel` marks
  nontermination and is *not* an `AutowiredException`, so the
  `except AutowiredException` handler in `autowire` does not catch it.
-/

namespace Autowired

/-! ## Python type references (`_typing_utils.py`'s universe) -/

/-- A Python type reference: a plain class (identified by name), `list[E]`,
a variadic tuple `tuple[E, ...]`, or a fixed-arity tuple (arities 1 and 2
suffice for this development). -/
inductive Ty where
  | cls (name : String)
  | listOf (elem : Ty)
  | tupleVar (elem : Ty)
  | tupleFixed1 (elem : Ty)
  | tupleFixed2 (fst snd : Ty)
deriving Repr, DecidableEq, Inhabited

/-- `__init__` parameter as seen by `inspect.signature` (the `self`
parameter is not represented).  `defaultType = some t` means the parameter
has a default value whose runtime type is `t`. -/
structure Param where
  name : String
  annotation : Option Ty
  defaultType : Option Ty
deriving Repr, DecidableEq

/-- Runtime metadata of one class: its `__module__`, its `__bases__` (as
names) and the parameter list of an `__init__` defined in the class's own
`__dict__` (if any). -/
structure ClassInfo where
  module : String
  bases : List String
  ownInit : Option (List Param)
deriving Repr, DecidableEq

abbrev ClassTable := List (String × ClassInfo)

/-- Builtin classes (`object`, `list`, `tuple`) live in module `builtins`
and need no entry in the table. -/
def builtinInfo : ClassInfo := { module := "builtins", bases := [], ownInit := none }

def lookupClass (ct : ClassTable) (n : String) : ClassInfo :=
  match ct.lookup n with
  | some i => i
  | none =>
    if n = "object" || n = "list" || n = "tuple" then builtinInfo
    else { module := "", bases := [], ownInit := none }

/-- `issubclass` on plain classes, walking `__bases__`; every class is a
subclass of itself and of `object`.  Fuel bounds the walk. -/
def issubclassFuel (ct : ClassTable) : Nat → String → String → Bool
  | 0, _, _ => false
  | fuel + 1, a, b =>
    if a = b then true
    else if b = "object" then true
    else (lookupClass ct a).bases.any fun c => issubclassFuel ct fuel c b

def issubclass (ct : ClassTable) (a b : String) : Bool :=
  issubclassFuel ct (ct.length + 1) a b

/-- `get_origin`: `none` for plain classes, the origin class name for
generic aliases. -/
def get_origin : Ty → Option String
  | .cls _ => none
  | .listOf _ => some "list"
  | .tupleVar _ => some "tuple"
  | .tupleFixed1 _ => some "tuple"
  | .tupleFixed2 _ _ => some "tuple"

/-- `get_origin(t) or t`, as a class name (generic aliases forward
`__name__`/`__module__` to their origin). -/
def originClsName : Ty → String
  | .cls n => n
  | .listOf _ => "list"
  | .tupleVar _ => "tuple"
  | .tupleFixed1 _ => "tuple"
  | .tupleFixed2 _ _ => "tuple"

/-- `get_args`; `none` stands for `Ellipsis` (only produced by
`tuple[E, ...]`). -/
def get_args : Ty → List (Option Ty)
  | .cls _ => []
  | .listOf e => [some e]
  | .tupleVar e => [some e, none]
  | .tupleFixed1 e => [some e]
  | .tupleFixed2 a b => [some a, some b]

def Ty.depth : Ty → Nat
  | .cls _ => 1
  | .listOf e => e.depth + 1
  | .tupleVar e => e.depth + 1
  | .tupleFixed1 e => e.depth + 1
  | .tupleFixed2 a b => max a.depth b.depth + 1

/-- `is_subtype` from `_typing_utils.py`, restricted to this universe
(which has no `Union`/`Any` constructors, so the union/`Any` branches of
the source are vacuous here).  Fuel bounds recursion into type arguments;
`is_subtype` below supplies enough. -/
def is_subtypeFuel (ct : ClassTable) : Nat → Ty → Ty → Bool
  | 0, _, _ => false
  | fuel + 1, t1, t2 =>
    match t1, t2 with
    | .cls a, .cls b => issubclass ct a b
    | _, _ =>
      -- base condition: origin1 must be a subclass of origin2
      if !issubclass ct (originClsName t1) (originClsName t2) then false
      -- only one of the two is generic: remaining arguments count as Any
      else if (get_origin t1).isNone || (get_origin t2).isNone then true
      else
        let args1 := get_args t1
        let args2 := get_args t2
        if args1.isEmpty || args2.isEmpty then true
        else (args1.zip args2).all fun
          | (some a1, some a2) => is_subtypeFuel ct fuel a1 a2
          | _ => true          -- Ellipsis is handled as Any

def is_subtype (ct : ClassTable) (t1 t2 : Ty) : Bool :=
  is_subtypeFuel ct t1.depth t1 t2

/-- `get_sequence_type`: the supported collective-resolution forms. -/
inductive SeqKind where
  | list
  | tuple
deriving Repr, DecidableEq

def get_sequence_type : Ty → Option (SeqKind × Ty)
  | .listOf e => some (.list, e)
  | .tupleVar e => some (.tuple, e)   -- args = (E, Ellipsis): len 2, args[1] is Ellipsis
  | _ => none
  -- fixed-arity tuples fail the `len(args) == 2 and args[1] is Ellipsis` test:
  -- a 1-tuple has one argument, a 2-tuple's second argument is not Ellipsis

/-- `_camel_to_snake`: insert `_` between a lowercase/digit and an
uppercase letter, then lowercase. -/
def camelToSnakeAux : List Char → List Char
  | [] => []
  | [c] => [c]
  | a :: b :: rest =>
    if (a.isLower || a.isDigit) && b.isUpper then a :: '_' :: camelToSnakeAux (b :: rest)
    else a :: camelToSnakeAux (b :: rest)

def _camel_to_snake (name : String) : String :=
  String.mk ((camelToSnakeAux name.toList).map Char.toLower)

/-! ## Dependencies, values, providers, errors (`_container.py`) -/

/-- `Dependency`: frozen dataclass `{name, type, required=True}`. -/
structure Dependency where
  name : String
  type : Ty
  required : Bool := true
deriving Repr, DecidableEq

/-- A Python runtime value, as far as the library can observe it: an object
(identified by its allocation id), a `list`/`tuple` built by collective
resolution, or the `_Provided` placeholder object (which `__getattribute__`
returns unchanged when a provided field was never assigned). -/
inductive Value where
  | obj (id : Nat)
  | seq (kind : SeqKind) (elems : List Value)
  | phProvided
deriving Repr, Inhabited

/-- Data recorded for each allocated object: its class and the keyword
arguments its constructor received. -/
structure ObjData where
  ty : Ty
  kwargs : List (String × Value)
deriving Repr, Inhabited

/-- The behaviours a `_SimpleProvider`'s zero-argument `getter` can have in
this development:
* `const v` — a closure over a fixed value (`Provider.from_instance`, and
  the `lambda: result` registered by `resolve`);
* ctor `t` — a factory constructing a fresh instance of `t` on every call
  (a transient supplier);
* `prop f` — a `_PropertyGetter` reading field `f` off the live context
  object (`Context.container`'s suppliers). -/
inductive Getter where
  | const (v : Value)
  | ctor (t : Ty)
  | prop (field : String)
deriving Repr, Inhabited

/-- `_SimpleProvider`: frozen dataclass `{name, type, getter}`;
`get_name()` returns `name`, `satisfies` is a subtype test on `type`. -/
structure Provider where
  name : String
  type : Ty
  getter : Getter
deriving Repr, Inhabited

def Provider.satisfies (ct : ClassTable) (p : Provider) (d : Dependency) : Bool :=
  is_subtype ct p.type d.type

/-- The library's exception taxonomy (`_exceptions.py`), plus
`attributeError` (Python's own `AttributeError`, not a library error) and
`outOfFuel` (marks nontermination of the embedded recursion).
`unresolvableDependency` carries its `__cause__` (`raise ... from e`). -/
inductive Err where
  | missingTypeHint
  | illegalAutoWireType (t : Ty)
  | ambiguousDependency (name : String)
  | unresolvableDependency (name : String) (cause : Err)
  | notProvided (field : String)
  | illegalContextClass
  | attributeError (field : String)
  | outOfFuel
deriving Repr, DecidableEq

/-- Which of the above are `AutowiredException`s, i.e. caught by the
`except AutowiredException` handler in `Container.autowire`. -/
def Err.isAutowiredException : Err → Bool
  | .attributeError _ => false
  | .outOfFuel => false
  | _ => true

/-! ## Container lookup and removal (pure parts) -/

/-- `Container.get_providers(dependency)`: the providers satisfying the
dependency, in registration order. -/
def get_providers (ct : ClassTable) (provs : List Provider) (d : Dependency) :
    List Provider :=
  provs.filter fun p => p.satisfies ct d

/-- `Container.get_provider(dependency)`: zero candidates → `None`; one →
that one; several → the unique one whose name (after `_group_by` by name)
equals `dependency.name`, else `AmbiguousDependencyException`.  The
`_group_by`-then-index of the source equals filtering the candidates by
`dependency.name`. -/
def get_provider (ct : ClassTable) (provs : List Provider) (d : Dependency) :
    Except Err (Option Provider) :=
  let candidates := get_providers ct provs d
  if candidates.length = 1 then .ok candidates.head?
  else if candidates.length > 1 then
    let byName := candidates.filter fun p => p.name = d.name
    if byName.length = 1 then .ok byName.head?
    else .error (.ambiguousDependency d.name)
  else .ok none

mutual
/-- Structural equality on values (list elements compared pointwise). -/
def Value.beq : Value → Value → Bool
  | .obj a, .obj b => a == b
  | .seq k1 es1, .seq k2 es2 => k1 == k2 && Value.beqList es1 es2
  | .phProvided, .phProvided => true
  | _, _ => false

def Value.beqList : List Value → List Value → Bool
  | [], [] => true
  | a :: as, b :: bs => Value.beq a b && Value.beqList as bs
  | _, _ => false
end

def Getter.beq : Getter → Getter → Bool
  | .const a, .const b => Value.beq a b
  | .ctor a, .ctor b => a == b
  | .prop a, .prop b => a == b
  | _, _ => false

/-- Frozen-dataclass equality on `_SimpleProvider`: field-wise. -/
def Provider.beq (p q : Provider) : Bool :=
  p.name == q.name && p.type == q.type && Getter.beq p.getter q.getter

/-- The argument of `Container.remove`: a provider or a provider name. -/
inductive RemoveArg where
  | provider (p : Provider)
  | name (n : String)

/-- The `predicate` closure inside `Container.remove`. -/
def removePred (arg : RemoveArg) (p : Provider) : Bool :=
  match arg with
  | .provider q => Provider.beq p q
  | .name n => p.name = n

/-- The `for i, p in enumerate(self._providers)` search with `break`:
index of the first matching provider, if any. -/
def findRemoveIndex (arg : RemoveArg) : List Provider → Option Nat
  | [] => none
  | p :: rest =>
    if removePred arg p then some 0
    else (findRemoveIndex arg rest).map (· + 1)

/-- `Container.remove`: find the first matching index (if any) and pop it;
no match leaves the list unchanged and raises nothing. -/
def Container.remove (arg : RemoveArg) (provs : List Provider) : List Provider :=
  match findRemoveIndex arg provs with
  | some i => provs.eraseIdx i
  | none => provs

/-! ## Constructor introspection (`_get_actual_init`,
`_get_dependencies_for_type`) -/

/-- `_get_actual_init`: the class's own `__init__` if defined, else the
first one found walking `__bases__` depth-first, skipping `object`. -/
def getActualInitFuel (ct : ClassTable) : Nat → String → Option (List Param)
  | 0, _ => none
  | fuel + 1, n =>
    match (lookupClass ct n).ownInit with
    | some ps => some ps
    | none =>
      ((lookupClass ct n).bases.filter (· ≠ "object")).findSome? fun b =>
        getActualInitFuel ct fuel b

def getActualInit (ct : ClassTable) (n : String) : Option (List Param) :=
  getActualInitFuel ct (ct.length + 1) n

/-- One constructor parameter ⟶ one `Dependency`: the declared annotation;
if absent, the runtime type of the default value; if neither, `object`.
`required` iff the parameter has no default. -/
def dependencyOfParam (p : Param) : Dependency :=
  let hasDefault := p.defaultType.isSome
  let annotation :=
    match p.annotation with
    | some a => a
    | none =>
      match p.defaultType with
      | some dt => dt
      | none => Ty.cls "object"
  { name := p.name, type := annotation, required := !hasDefault }

/-- `_get_dependencies_for_type` (only ever reached for plain classes: the
module deny-list in `autowire` rejects generic aliases first, their
`__module__` being `builtins`). -/
def getDependenciesForType (ct : ClassTable) (t : Ty) : List Dependency :=
  match t with
  | .cls n =>
    match getActualInit ct n with
    | some ps => ps.map dependencyOfParam
    | none => []
  | _ => []

/-- `t.__module__.split(".")[0]`; generic aliases forward `__module__` to
their origin class. -/
def moduleRoot (ct : ClassTable) (t : Ty) : String :=
  String.mk ((lookupClass ct (originClsName t)).module.toList.takeWhile (· ≠ '.'))

def illegalModules : List String :=
  ["builtins", "typing", "dataclasses", "abc", "object"]

/-! ## Context declarations (`_context.py`) -/

/-- The flags of an `_Autowired` declaration.  (Modelled fields declare no
explicit `kw_args`/`kw_args_factory`, so `get_all_kw_args` yields `{}`.) -/
structure AutowiredDecl where
  eager : Bool := false
  transient : Bool := false
  threadLocal : Bool := false
deriving Repr, DecidableEq

inductive FieldDecl where
  | auto (d : AutowiredDecl)
  | prov
deriving Repr, DecidableEq

/-- The declarative content of a `Context` subclass: its `_Autowired` /
`_Provided` class-body entries in declaration order (each with the class
annotation `_get_field_type` would find), the user-declared properties
(cached or plain, with their declared return type — all modelled
properties are annotated), and whether the class is a dataclass. -/
structure ContextClass where
  isDataclass : Bool := false
  fields : List (String × FieldDecl × Ty) := []
  props : List (String × Ty) := []
deriving Repr

def ContextClass.eagerFields (cc : ContextClass) : List String :=
  cc.fields.filterMap fun f =>
    match f.2.1 with
    | .auto d => if d.eager then some f.1 else none
    | .prov => none

def ContextClass.providedFields (cc : ContextClass) : List String :=
  cc.fields.filterMap fun f =>
    match f.2.1 with
    | .prov => some f.1
    | _ => none

/-- `_get_field_type`: the class annotation of a declared field. -/
def ContextClass.fieldType (cc : ContextClass) (f : String) : Option Ty :=
  (cc.fields.lookup f).map (·.2)

/-- What a context field currently holds: still the `_Autowired`
declaration, still the `_Provided` placeholder, or an actual value.  The
class-body placeholders and the instance `__dict__` are merged into one
map per instance (an assignment shadows the class attribute, which is
exactly what instance-attribute lookup observes). -/
inductive FieldVal where
  | autowiredPh (d : AutowiredDecl)
  | providedPh
  | val (v : Value)
deriving Repr

/-- Per-instance context state: the field map, the per-(field, thread)
`threading.local` storages, and the `cached_property` cache of
`Context.container` (the id of the derived container, once computed). -/
structure CtxSt where
  fields : List (String × FieldVal) := []
  tlocal : List (String × List (Nat × Value)) := []
  memo : Option Nat := none
deriving Repr

/-- Field map of a freshly constructed instance: every declared field
still holds its placeholder. -/
def initFields (cc : ContextClass) : List (String × FieldVal) :=
  cc.fields.map fun f =>
    (f.1, match f.2.1 with
          | .auto d => FieldVal.autowiredPh d
          | .prov => FieldVal.providedPh)

/-! ## Global state -/

/-- Global mutable state: the allocation counter and heap, the `Container`
objects (by id, each owning its ordered provider list), and the state of
the (single) context instance under consideration. -/
structure St where
  nextId : Nat := 0
  heap : List (Nat × ObjData) := []
  containers : List (Nat × List Provider) := []
  nextCid : Nat := 0
  ctx : CtxSt := {}
deriving Repr

/-- Replace the binding of `k` (first occurrence) or append it. -/
def updateAssoc {α : Type} (k : String) (v : α) : List (String × α) → List (String × α)
  | [] => [(k, v)]
  | (k', v') :: rest =>
    if k' = k then (k, v) :: rest else (k', v') :: updateAssoc k v rest

def updateAssocNat {α : Type} (k : Nat) (v : α) : List (Nat × α) → List (Nat × α)
  | [] => [(k, v)]
  | (k', v') :: rest =>
    if k' = k then (k, v) :: rest else (k', v') :: updateAssocNat k v rest

def St.getProvs (s : St) (cid : Nat) : List Provider :=
  (s.containers.lookup cid).getD []

def St.setProvs (s : St) (cid : Nat) (ps : List Provider) : St :=
  { s with containers := updateAssocNat cid ps s.containers }

/-- `Container.add` with an explicit provider (appends). -/
def St.addProvider (s : St) (cid : Nat) (p : Provider) : St :=
  s.setProvs cid (s.getProvs cid ++ [p])

def St.setField (s : St) (f : String) (fv : FieldVal) : St :=
  { s with ctx := { s.ctx with fields := updateAssoc f fv s.ctx.fields } }

def St.tlocalGet (s : St) (f : String) (tid : Nat) : Option Value :=
  (s.ctx.tlocal.lookup f).bind fun m => m.lookup tid

def St.tlocalSet (s : St) (f : String) (tid : Nat) (v : Value) : St :=
  let store := updateAssocNat tid v ((s.ctx.tlocal.lookup f).getD [])
  { s with ctx := { s.ctx with tlocal := updateAssoc f store s.ctx.tlocal } }

/-- `t(**kwargs)`: allocate a fresh object of class `t`, recording the
keyword arguments the constructor received.  Constructors never raise in
this model, so `InstantiationError` does not arise. -/
def instantiate (t : Ty) (kw : List (String × Value)) (s : St) : Value × St :=
  (.obj s.nextId,
   { s with nextId := s.nextId + 1, heap := s.heap ++ [(s.nextId, ⟨t, kw⟩)] })

/-! ## Context → Container projection (`Context.container`) -/

/-- Lexicographic byte/code-point comparison on strings (the order
Python's `sorted` uses for identifiers). -/
def strLeB (a b : String) : Bool :=
  go a.toList b.toList
where
  go : List Char → List Char → Bool
    | [], _ => true
    | _ :: _, [] => false
    | c :: cs, d :: ds =>
      if c.toNat < d.toNat then true
      else if d.toNat < c.toNat then false
      else go cs ds

/-- Insertion sort by name: `inspect.getmembers` returns the class's
attributes sorted by name. -/
def insertByName (x : String × Ty) : List (String × Ty) → List (String × Ty)
  | [] => [x]
  | y :: ys => if strLeB x.1 y.1 then x :: y :: ys else y :: insertByName x ys

def sortByName : List (String × Ty) → List (String × Ty)
  | [] => []
  | x :: xs => insertByName x (sortByName xs)

/-- `_get_obj_properties`: the declared properties together with the
`_Autowired`/`_Provided` fields, plus the `container` cached property
itself (it is a member of every `Context` class; its entry is skipped by
name before its type is ever used). -/
def ctxProperties (cc : ContextClass) : List (String × Ty) :=
  sortByName
    (cc.props ++ cc.fields.map (fun f => (f.1, f.2.2)) ++ [("container", .cls "Container")])

/-- `prop.name.lstrip("_")`: strips every leading underscore. -/
def lstripUnderscores (s : String) : String :=
  String.mk (s.toList.dropWhile (· = '_'))

/-- The provider list `Context.container` builds on first access: one
supplier-backed provider per property except `container`, named after the
property with `lstrip("_")`, reading the property off the live context. -/
def derivedProviders (cc : ContextClass) : List Provider :=
  ((ctxProperties cc).filter fun p => p.1 ≠ "container").map fun p =>
    { name := lstripUnderscores p.1, type := p.2, getter := .prop p.1 }

/-- `Context.container` (a `cached_property`): on first access create the
derived container and memoize its id; afterwards return the memoized id
unchanged. -/
def ctxContainer (cc : ContextClass) (s : St) : Nat × St :=
  match s.ctx.memo with
  | some cid => (cid, s)
  | none =>
    let cid := s.nextCid
    (cid,
     { s with containers := s.containers ++ [(cid, derivedProviders cc)],
              nextCid := cid + 1,
              ctx := { s.ctx with memo := some cid } })

/-! ## The resolution engine

`Container.resolve` / `Container.autowire` and the context lazy-field
protocol are mutually recursive through provider `get_instance` (a
`_PropertyGetter` re-enters the context's `__getattribute__`); fuel bounds
the recursion, and every operation returns the state it reached even on
error (Python exceptions do not roll back mutations). -/

section Engine

variable (ct : ClassTable) (cc : ContextClass)

mutual

/-- `Container.resolve(dependency)` on container `cid`, for thread `tid`. -/
def resolveC : Nat → Nat → Nat → Dependency → St → Except Err Value × St
  | 0, _, _, _, s => (.error .outOfFuel, s)
  | fuel + 1, tid, cid, dep, s =>
    match get_provider ct (s.getProvs cid) dep with
    | .error e => (.error e, s)
    | .ok (some p) => getInstance fuel tid p.getter s
    | .ok none =>
      match get_sequence_type dep.type with
      | some (kind, elemTy) =>
        -- list-injection special case: one instance from every provider
        -- matching the element type, in registration order
        let elemDep : Dependency := { name := dep.name, type := elemTy, required := true }
        match gatherElems fuel tid (get_providers ct (s.getProvs cid) elemDep) s with
        | (.error e, s') => (.error e, s')
        | (.ok vs, s') => (.ok (.seq kind vs), s')
      | none =>
        match autowireC fuel tid cid dep.type [] s with
        | (.error e, s') => (.error e, s')
        | (.ok v, s') =>
          -- register `Provider.from_supplier(lambda: result, dep.type, dep.name)`
          (.ok v, s'.addProvider cid { name := dep.name, type := dep.type, getter := .const v })
termination_by structural fuel tid cid dep s => fuel

/-- `Container.autowire(t, **explicit_kw_args)` on container `cid`. -/
def autowireC : Nat → Nat → Nat → Ty → List (String × Value) → St → Except Err Value × St
  | 0, _, _, _, _, s => (.error .outOfFuel, s)
  | fuel + 1, tid, cid, t, explicitKw, s =>
    if illegalModules.contains (moduleRoot ct t) then
      (.error (.illegalAutoWireType t), s)
    else
      match autowireLoop fuel tid cid (getDependenciesForType ct t) explicitKw s with
      | (.error e, s') => (.error e, s')
      | (.ok kw, s') =>
        let (v, s'') := instantiate t kw s'
        (.ok v, s'')
termination_by structural fuel tid cid t kw s => fuel

/-- The `for dep in dependencies` loop of `autowire`, accumulating
`resolved_kw_args`.  The `get_provider` call at the top of the loop body
sits outside the `try`, so an ambiguity on the parameter itself escapes
unwrapped; only errors raised by the recursive `resolve` are caught, and
only `AutowiredException`s. -/
def autowireLoop : Nat → Nat → Nat → List Dependency → List (String × Value) → St →
    Except Err (List (String × Value)) × St
  | 0, _, _, _, _, s => (.error .outOfFuel, s)
  | fuel + 1, tid, cid, deps, kw, s =>
    match deps with
    | [] => (.ok kw, s)
    | dep :: rest =>
      if (kw.lookup dep.name).isSome then
        autowireLoop fuel tid cid rest kw s
      else
        match get_provider ct (s.getProvs cid) dep with
        | .error e => (.error e, s)
        | .ok (some p) =>
          match getInstance fuel tid p.getter s with
          | (.error e, s') => (.error e, s')
          | (.ok v, s') => autowireLoop fuel tid cid rest (kw ++ [(dep.name, v)]) s'
        | .ok none =>
          match resolveC fuel tid cid dep s with
          | (.ok v, s') => autowireLoop fuel tid cid rest (kw ++ [(dep.name, v)]) s'
          | (.error e, s') =>
            if e.isAutowiredException then
              if dep.required then (.error (.unresolvableDependency dep.name e), s')
              else
                -- not required: failure silently swallowed, parameter omitted
                autowireLoop fuel tid cid rest kw s'
            else (.error e, s')
termination_by structural fuel tid cid deps kw s => fuel

/-- One `get_instance` per provider of the element type (list injection). -/
def gatherElems : Nat → Nat → List Provider → St → Except Err (List Value) × St
  | 0, _, _, s => (.error .outOfFuel, s)
  | fuel + 1, tid, ps, s =>
    match ps with
    | [] => (.ok [], s)
    | p :: rest =>
      match getInstance fuel tid p.getter s with
      | (.error e, s') => (.error e, s')
      | (.ok v, s') =>
        match gatherElems fuel tid rest s' with
        | (.error e, s'') => (.error e, s'')
        | (.ok vs, s'') => (.ok (v :: vs), s'')
termination_by structural fuel tid ps s => fuel

/-- `provider.get_instance(dependency, container)` for a
`_SimpleProvider`: just calls the stored zero-argument getter. -/
def getInstance : Nat → Nat → Getter → St → Except Err Value × St
  | 0, _, _, s => (.error .outOfFuel, s)
  | fuel + 1, tid, g, s =>
    match g with
    | .const v => (.ok v, s)
    | .ctor t =>
      let (v, s') := instantiate t [] s
      (.ok v, s')
    | .prop f => ctxGet fuel tid f s
termination_by structural fuel tid g s => fuel

/-- The context's intercepted `__getattribute__` for field `item` read by
thread `tid`.  A value or a `_Provided` placeholder is returned as-is; an
`_Autowired` placeholder is resolved per its flags.  In the sequential
semantics the double-checked re-read under the per-field lock sees the
value unchanged, so the normal branch autowires and caches. -/
def ctxGet : Nat → Nat → String → St → Except Err Value × St
  | 0, _, _, s => (.error .outOfFuel, s)
  | fuel + 1, tid, item, s =>
    match s.ctx.fields.lookup item with
    | none => (.error (.attributeError item), s)
    | some (.val v) => (.ok v, s)
    | some .providedPh => (.ok .phProvided, s)
    | some (.autowiredPh d) =>
      match cc.fieldType item with
      | none => (.error .missingTypeHint, s)
      | some fieldTy =>
        if d.transient then
          -- fresh autowire on every access, never cached
          ctxAutowire fuel tid fieldTy s
        else if d.threadLocal then
          match s.tlocalGet item tid with
          | some v => (.ok v, s)
          | none =>
            match ctxAutowire fuel tid fieldTy s with
            | (.error e, s') => (.error e, s')
            | (.ok v, s') => (.ok v, s'.tlocalSet item tid v)
        else
          match ctxAutowire fuel tid fieldTy s with
          | (.error e, s') => (.error e, s')
          | (.ok v, s') => (.ok v, s'.setField item (.val v))
termination_by structural fuel tid item s => fuel

/-- `Context.autowire(t)`: autowire through the (memoized) derived
container. -/
def ctxAutowire : Nat → Nat → Ty → St → Except Err Value × St
  | 0, _, _, s => (.error .outOfFuel, s)
  | fuel + 1, tid, t, s =>
    let (cid, s') := ctxContainer cc s
    autowireC fuel tid cid t [] s'
termination_by structural fuel tid t s => fuel

end

/-- `Container.resolve` with a bare type argument: normalized to a
dependency named after the snake_case of the type name. -/
def resolveType (fuel tid cid : Nat) (t : Ty) (s : St) : Except Err Value × St :=
  resolveC ct cc fuel tid cid { name := _camel_to_snake (originClsName t), type := t, required := true } s

/-! ## Context construction (`_ContextMeta.__new__`'s `new_init`) -/

/-- Forced `getattr` on each eager field, in declaration order. -/
def eagerLoop (fuel tid : Nat) : List String → St → Except Err Unit × St
  | [], s => (.ok (), s)
  | f :: fs, s =>
    match ctxGet ct cc fuel tid f s with
    | (.error e, s') => (.error e, s')
    | (.ok _, s') => eagerLoop fuel tid fs s'

def Value.isProvidedPh : Value → Bool
  | .phProvided => true
  | _ => false

/-- The provided-field presence check after construction: read each
provided field; if it still holds the placeholder, raise
`NotProvidedException`. -/
def providedLoop (fuel tid : Nat) : List String → St → Except Err Unit × St
  | [], s => (.ok (), s)
  | f :: fs, s =>
    match ctxGet ct cc fuel tid f s with
    | (.error e, s') => (.error e, s')
    | (.ok v, s') =>
      if v.isProvidedPh then (.error (.notProvided f), s')
      else providedLoop fuel tid fs s'

/-- `new_init`: initialize the per-field lock table (no observable effect
sequentially), reject dataclasses, run the class's own `__init__` body,
force every eager field, then check every provided field. -/
def newInit (fuel tid : Nat) (origInit : St → St) (s : St) : Except Err Unit × St :=
  if cc.isDataclass then (.error .illegalContextClass, s)
  else
    let s1 := origInit s
    match eagerLoop ct cc fuel tid cc.eagerFields s1 with
    | (.error e, s') => (.error e, s')
    | (.ok _, s') => providedLoop ct cc fuel tid cc.providedFields s'

end Engine

/-! ## Basic lemmas -/

theorem Ty.depth_pos (t : Ty) : 0 < t.depth := by
  cases t <;> simp [Ty.depth]

theorem issubclassFuel_self (ct : ClassTable) (fuel : Nat) (a : String) (h : 0 < fuel) :
    issubclassFuel ct fuel a a = true := by
  cases fuel with
  | zero => omega
  | succ f => simp [issubclassFuel]

theorem issubclass_self (ct : ClassTable) (a : String) : issubclass ct a a = true :=
  issubclassFuel_self ct _ a (Nat.succ_pos _)

theorem is_subtypeFuel_self (ct : ClassTable) :
    ∀ (t : Ty) (fuel : Nat), t.depth ≤ fuel → is_subtypeFuel ct fuel t t = true := by
  intro t
  induction t with
  | cls n =>
    intro fuel h
    cases fuel with
    | zero => simp [Ty.depth] at h
    | succ f => simp [is_subtypeFuel, issubclass_self]
  | listOf e ih =>
    intro fuel h
    cases fuel with
    | zero => simp [Ty.depth] at h
    | succ f =>
      simp only [Ty.depth] at h
      simp [is_subtypeFuel, issubclass_self, get_origin, originClsName, get_args,
        ih f (by omega)]
  | tupleVar e ih =>
    intro fuel h
    cases fuel with
    | zero => simp [Ty.depth] at h
    | succ f =>
      simp only [Ty.depth] at h
      simp [is_subtypeFuel, issubclass_self, get_origin, originClsName, get_args,
        ih f (by omega)]
  | tupleFixed1 e ih =>
    intro fuel h
    cases fuel with
    | zero => simp [Ty.depth] at h
    | succ f =>
      simp only [Ty.depth] at h
      simp [is_subtypeFuel, issubclass_self, get_origin, originClsName, get_args,
        ih f (by omega)]
  | tupleFixed2 a b iha ihb =>
    intro fuel h
    cases fuel with
    | zero => simp [Ty.depth] at h
    | succ f =>
      simp only [Ty.depth] at h
      simp [is_subtypeFuel, issubclass_self, get_origin, originClsName, get_args,
        iha f (by omega), ihb f (by omega)]

theorem is_subtype_self (ct : ClassTable) (t : Ty) : is_subtype ct t t = true :=
  is_subtypeFuel_self ct t t.depth (Nat.le_refl _)

theorem satisfies_of_type_eq (ct : ClassTable) (p : Provider) (d : Dependency)
    (h : p.type = d.type) : p.satisfies ct d = true := by
  simp [Provider.satisfies, h, is_subtype_self]

/-! ### `get_provider` case analysis -/

theorem get_provider_of_nil (ct : ClassTable) (provs : List Provider) (d : Dependency)
    (h : get_providers ct provs d = []) : get_provider ct provs d = .ok none := by
  simp [get_provider, h]

theorem get_provider_of_singleton (ct : ClassTable) (provs : List Provider)
    (d : Dependency) (p : Provider) (h : get_providers ct provs d = [p]) :
    get_provider ct provs d = .ok (some p) := by
  simp [get_provider, h]

theorem get_provider_of_name_unique (ct : ClassTable) (provs : List Provider)
    (d : Dependency) (p : Provider) (h1 : 1 < (get_providers ct provs d).length)
    (h2 : (get_providers ct provs d).filter (fun q => q.name = d.name) = [p]) :
    get_provider ct provs d = .ok (some p) := by
  have hne : (get_providers ct provs d).length ≠ 1 := by omega
  simp [get_provider, hne, h1, h2]

theorem get_provider_of_ambiguous (ct : ClassTable) (provs : List Provider)
    (d : Dependency) (h1 : 1 < (get_providers ct provs d).length)
    (h2 : ((get_providers ct provs d).filter (fun q => q.name = d.name)).length ≠ 1) :
    get_provider ct provs d = .error (.ambiguousDependency d.name) := by
  have hne : (get_providers ct provs d).length ≠ 1 := by omega
  simp [get_provider, hne, h1, h2]

/-! ## Claim C1: ambiguity resolution in `get_provider` -/

/-- **C1.**  For every container and dependency `d`, `get_provider d`
returns `None` when no registered provider satisfies `d`; returns the
unique satisfying provider when exactly one does; with several candidates
it returns the single candidate named `d.name` when exactly one bears that
name, and otherwise raises `AmbiguousDependencyException` — in particular
also when two or more satisfying candidates share the name `d.name`
(`length ≠ 1` covers every count other than one). -/
theorem get_provider_ambiguity_protocol (ct : ClassTable) (provs : List Provider)
    (d : Dependency) :
    (get_providers ct provs d = [] → get_provider ct provs d = .ok none) ∧
    (∀ p, get_providers ct provs d = [p] → get_provider ct provs d = .ok (some p)) ∧
    (∀ p, 1 < (get_providers ct provs d).length →
      (get_providers ct provs d).filter (fun q => q.name = d.name) = [p] →
      get_provider ct provs d = .ok (some p)) ∧
    (1 < (get_providers ct provs d).length →
      ((get_providers ct provs d).filter (fun q => q.name = d.name)).length ≠ 1 →
      get_provider ct provs d = .error (.ambiguousDependency d.name)) :=
  ⟨get_provider_of_nil ct provs d,
   fun p => get_provider_of_singleton ct provs d p,
   fun p => get_provider_of_name_unique ct provs d p,
   get_provider_of_ambiguous ct provs d⟩

/-- Concrete witness for C1: a one-class table, providers named `a`, `a`,
`b` of that class.  An unsatisfiable request finds nothing; a single
candidate is returned; a unique name match disambiguates; two candidates
sharing the requested name `a` raise `AmbiguousDependencyException` even
though the requested name matches. -/
theorem get_provider_ambiguity_protocol_witness :
    get_provider [("P", ⟨"app", [], none⟩)]
        [⟨"a", .cls "P", .const (.obj 1)⟩] ⟨"q", .cls "Q", true⟩ = .ok none ∧
    get_provider [("P", ⟨"app", [], none⟩)]
        [⟨"a", .cls "P", .const (.obj 1)⟩] ⟨"a", .cls "P", true⟩ =
      .ok (some ⟨"a", .cls "P", .const (.obj 1)⟩) ∧
    get_provider [("P", ⟨"app", [], none⟩)]
        [⟨"a", .cls "P", .const (.obj 1)⟩, ⟨"b", .cls "P", .const (.obj 2)⟩]
        ⟨"b", .cls "P", true⟩ = .ok (some ⟨"b", .cls "P", .const (.obj 2)⟩) ∧
    get_provider [("P", ⟨"app", [], none⟩)]
        [⟨"a", .cls "P", .const (.obj 1)⟩, ⟨"a", .cls "P", .const (.obj 2)⟩,
         ⟨"b", .cls "P", .const (.obj 3)⟩]
        ⟨"a", .cls "P", true⟩ = .error (.ambiguousDependency "a") :=
  ⟨(get_provider_ambiguity_protocol _ _ _).1 rfl,
   (get_provider_ambiguity_protocol _ _ _).2.1 _ rfl,
   (get_provider_ambiguity_protocol _ _ _).2.2.1 _ (by decide) rfl,
   (get_provider_ambiguity_protocol _ _ _).2.2.2 (by decide) (by decide)⟩

/-! ## Claim C9: `Container.remove` -/

theorem findRemoveIndex_of_no_match (arg : RemoveArg) :
    ∀ provs : List Provider, (∀ p ∈ provs, removePred arg p = false) →
      findRemoveIndex arg provs = none := by
  intro provs h
  induction provs with
  | nil => rfl
  | cons p rest ih =>
    have hp := h p (List.mem_cons_self p rest)
    simp [findRemoveIndex, hp, ih fun q hq => h q (List.mem_cons_of_mem p hq)]

theorem findRemoveIndex_of_first_match (arg : RemoveArg) :
    ∀ (l1 : List Provider) (p : Provider) (l2 : List Provider),
      (∀ q ∈ l1, removePred arg q = false) → removePred arg p = true →
      findRemoveIndex arg (l1 ++ p :: l2) = some l1.length := by
  intro l1 p l2 h1 hp
  induction l1 with
  | nil => simp [findRemoveIndex, hp]
  | cons q rest ih =>
    have hq := h1 q (List.mem_cons_self q rest)
    simp [findRemoveIndex, hq, ih fun r hr => h1 r (List.mem_cons_of_mem q hr)]

theorem eraseIdx_append_length (l1 : List Provider) (p : Provider) (l2 : List Provider) :
    (l1 ++ p :: l2).eraseIdx l1.length = l1 ++ l2 := by
  induction l1 with
  | nil => rfl
  | cons q rest ih => simp [List.eraseIdx, ih]

/-- **C9.**  `Container.remove(x)` removes at most one provider: the
earliest (in insertion order) that is equal to `x` (when `x` is a
provider) or whose name equals `x` (when `x` is a string) — `removePred`
is exactly that predicate.  All other providers keep their relative
order, and when nothing matches the provider list is returned unchanged
(the operation is total: no error is raised). -/
theorem remove_first_match_only (arg : RemoveArg) :
    (∀ provs : List Provider, (∀ p ∈ provs, removePred arg p = false) →
      Container.remove arg provs = provs) ∧
    (∀ (l1 : List Provider) (p : Provider) (l2 : List Provider),
      (∀ q ∈ l1, removePred arg q = false) → removePred arg p = true →
      Container.remove arg (l1 ++ p :: l2) = l1 ++ l2) := by
  constructor
  · intro provs h
    simp [Container.remove, findRemoveIndex_of_no_match arg provs h]
  · intro l1 p l2 h1 hp
    simp [Container.remove, findRemoveIndex_of_first_match arg l1 p l2 h1 hp,
      eraseIdx_append_length]

/-- Concrete witness for C9: removing by name `"b"` from
`[a, b₁, b₂, c]` removes only the first `b`; removing a provider value
removes its first occurrence; removing an absent name is a no-op. -/
theorem remove_first_match_only_witness :
    Container.remove (.name "b")
        [⟨"a", .cls "P", .const (.obj 1)⟩, ⟨"b", .cls "P", .const (.obj 2)⟩,
         ⟨"b", .cls "P", .const (.obj 3)⟩, ⟨"c", .cls "P", .const (.obj 4)⟩] =
      [⟨"a", .cls "P", .const (.obj 1)⟩, ⟨"b", .cls "P", .const (.obj 3)⟩,
       ⟨"c", .cls "P", .const (.obj 4)⟩] ∧
    Container.remove (.provider ⟨"b", .cls "P", .const (.obj 3)⟩)
        [⟨"a", .cls "P", .const (.obj 1)⟩, ⟨"b", .cls "P", .const (.obj 3)⟩,
         ⟨"b", .cls "P", .const (.obj 3)⟩] =
      [⟨"a", .cls "P", .const (.obj 1)⟩, ⟨"b", .cls "P", .const (.obj 3)⟩] ∧
    Container.remove (.name "zz")
        [⟨"a", .cls "P", .const (.obj 1)⟩, ⟨"b", .cls "P", .const (.obj 2)⟩] =
      [⟨"a", .cls "P", .const (.obj 1)⟩, ⟨"b", .cls "P", .const (.obj 2)⟩] :=
  ⟨(remove_first_match_only (.name "b")).2
      [⟨"a", .cls "P", .const (.obj 1)⟩] ⟨"b", .cls "P", .const (.obj 2)⟩
      [⟨"b", .cls "P", .const (.obj 3)⟩, ⟨"c", .cls "P", .const (.obj 4)⟩]
      (by decide) (by decide),
   (remove_first_match_only (.provider ⟨"b", .cls "P", .const (.obj 3)⟩)).2
      [⟨"a", .cls "P", .const (.obj 1)⟩] ⟨"b", .cls "P", .const (.obj 3)⟩
      [⟨"b", .cls "P", .const (.obj 3)⟩]
      (by decide) (by decide),
   (remove_first_match_only (.name "zz")).1
      [⟨"a", .cls "P", .const (.obj 1)⟩, ⟨"b", .cls "P", .const (.obj 2)⟩]
      (by decide)⟩

/-! ## State lemmas -/

theorem lookup_updateAssocNat {α : Type} (k : Nat) (v : α) :
    ∀ l : List (Nat × α), (updateAssocNat k v l).lookup k = some v := by
  intro l
  induction l with
  | nil => simp [updateAssocNat, List.lookup]
  | cons kv rest ih =>
    by_cases h : kv.1 = k
    · simp [updateAssocNat, h, List.lookup]
    · have hbeq : (k == kv.1) = false := beq_eq_false_iff_ne.mpr fun hh => h hh.symm
      simp [updateAssocNat, h, List.lookup, ih, hbeq]

theorem getProvs_addProvider (s : St) (cid : Nat) (p : Provider) :
    (s.addProvider cid p).getProvs cid = s.getProvs cid ++ [p] := by
  simp [St.addProvider, St.setProvs, St.getProvs, lookup_updateAssocNat]

theorem getProvs_instantiate (t : Ty) (kw : List (String × Value)) (s : St) (cid : Nat) :
    (instantiate t kw s).2.getProvs cid = s.getProvs cid := rfl

/-! ## Claim C2: memoization of `resolve` (corrected) -/

/-- Shared fixture: a small application class table. `PluginA`/`PluginB`
subclass `Plugin`; `PluginService` takes `plugins: List[Plugin]`;
`TuplePluginService` takes `plugins: Tuple[Plugin]` (fixed 1-tuple);
`Service` has no constructor of its own. -/
def ctApp : ClassTable :=
  [("Plugin", ⟨"app", [], none⟩),
   ("PluginA", ⟨"app", ["Plugin"], none⟩),
   ("PluginB", ⟨"app", ["Plugin"], none⟩),
   ("Service", ⟨"app", [], none⟩),
   ("PluginService", ⟨"app", [], some [⟨"plugins", some (.listOf (.cls "Plugin")), none⟩]⟩),
   ("TuplePluginService", ⟨"app", [], some [⟨"plugins", some (.tupleFixed1 (.cls "Plugin")), none⟩]⟩),
   ("Mid", ⟨"app", [], some [⟨"q", some (.cls "Plugin"), none⟩]⟩),
   ("NeedsMid", ⟨"app", [], some [⟨"m", some (.cls "Mid"), none⟩]⟩),
   ("OptionalMid", ⟨"app", [], some [⟨"m", some (.cls "Mid"), some (.cls "NoneType")⟩]⟩),
   ("Holder", ⟨"app", [], some [⟨"x", none, none⟩]⟩)]

/-- Fixture: a container (id 0) holding singleton providers for a
`PluginA` instance and a `PluginB` instance, registered in that order. -/
def stPlugins : St :=
  { containers := [(0, [⟨"plugin_a", .cls "PluginA", .const (.obj 100)⟩,
                        ⟨"plugin_b", .cls "PluginB", .const (.obj 101)⟩])],
    nextCid := 1 }

/-- Fixture for the second C2 refutation: `Widget.__init__` takes
`x: SubWidget`, and `SubWidget` subclasses `Widget` (defining its own
no-argument `__init__`), so auto-wiring `Widget` first registers a
provider for the `x` parameter whose type also satisfies `Widget`. -/
def ctWidget : ClassTable :=
  [("Widget", ⟨"app", [], some [⟨"x", some (.cls "SubWidget"), none⟩]⟩),
   ("SubWidget", ⟨"app", ["Widget"], some []⟩)]

/-- Fixture: an empty container (id 0). -/
def stEmptyW : St := { containers := [(0, [])], nextCid := 1 }

/-- The state after `resolve(Dependency("x", Widget))` on the empty
container: the auto-wiring registered `("x", SubWidget)` for the
constructor parameter and then `("x", Widget)` for the result — two
providers bearing the name `x`, both satisfying type `Widget`. -/
def stWidgetAfter : St :=
  { nextId := 2,
    heap := [(0, ⟨.cls "SubWidget", []⟩),
             (1, ⟨.cls "Widget", [("x", .obj 0)]⟩)],
    containers := [(0, [⟨"x", .cls "SubWidget", .const (.obj 0)⟩,
                        ⟨"x", .cls "Widget", .const (.obj 1)⟩])],
    nextCid := 1 }

/-- **C2 counterexample.**  Two concrete refutations of the claim as
stated, over every dependency not satisfied by a pre-registered provider:

1. a sequence-typed dependency takes the list-injection branch of
   `resolve`: `list[Plugin]` is satisfied by no provider, `resolve`
   succeeds — and the state is returned unchanged, so no supplier-backed
   provider named `"plugins"` was registered, contradicting the claimed
   side effect;
2. even on the non-sequence path, where the first
   `resolve(Dependency("x", Widget))` does auto-wire and register as the
   claim says, the auto-wiring itself also registered a same-named
   provider satisfying the dependency (for the `x: SubWidget` constructor
   parameter), so the second resolve of the same logical dependency
   raises `AmbiguousDependencyException` instead of returning the
   identical object. -/
theorem resolve_memoization_counterexample :
    (resolveC ctApp {} 10 0 0 ⟨"plugins", .listOf (.cls "Plugin"), true⟩ stPlugins =
      (.ok (.seq .list [.obj 100, .obj 101]), stPlugins) ∧
     (stPlugins.getProvs 0).all (fun p => p.name ≠ "plugins") = true) ∧
    (resolveC ctWidget {} 10 0 0 ⟨"x", .cls "Widget", true⟩ stEmptyW =
      (.ok (.obj 1), stWidgetAfter) ∧
     resolveC ctWidget {} 10 0 0 ⟨"x", .cls "Widget", true⟩ stWidgetAfter =
      (.error (.ambiguousDependency "x"), stWidgetAfter)) := by
  refine ⟨⟨rfl, by decide⟩, rfl, rfl⟩

/-- **C2 (amended).**  For a dependency `D` whose type is **not** a
supported sequence form and that no registered provider satisfies, a
successful `resolve(D)` returns the auto-wired instance and appends a
supplier-backed provider holding exactly that instance, named and typed
per `D`; provided the auto-wiring itself registered no further provider
satisfying `D`, every later `resolve(D)` (with any sufficient fuel)
returns the identical object and leaves the state unchanged.  When `D`
instead matches a pre-registered transient supplier provider, two
successive `resolve(D)` calls return two distinct freshly allocated
objects. -/
theorem resolve_memoizes_and_transient_distinct (ct : ClassTable) (cc : ContextClass) :
    (∀ fuel tid cid D s v s₀,
      get_providers ct (s.getProvs cid) D = [] →
      get_sequence_type D.type = none →
      autowireC ct cc fuel tid cid D.type [] s = (.ok v, s₀) →
      resolveC ct cc (fuel + 1) tid cid D s =
        (.ok v, s₀.addProvider cid ⟨D.name, D.type, .const v⟩) ∧
      (get_providers ct (s₀.getProvs cid) D = [] →
        ∀ f2, resolveC ct cc (f2 + 2) tid cid D
            (s₀.addProvider cid ⟨D.name, D.type, .const v⟩) =
          (.ok v, s₀.addProvider cid ⟨D.name, D.type, .const v⟩))) ∧
    (∀ fuel tid cid D s p T,
      get_provider ct (s.getProvs cid) D = .ok (some p) →
      p.getter = .ctor T →
      resolveC ct cc (fuel + 2) tid cid D s =
        (.ok (.obj s.nextId), (instantiate T [] s).2) ∧
      resolveC ct cc (fuel + 2) tid cid D (instantiate T [] s).2 =
        (.ok (.obj (s.nextId + 1)), (instantiate T [] (instantiate T [] s).2).2) ∧
      Value.obj s.nextId ≠ Value.obj (s.nextId + 1)) := by
  constructor
  · intro fuel tid cid D s v s₀ h1 h2 h3
    have hgp := get_provider_of_nil ct _ D h1
    constructor
    · simp only [resolveC, hgp, h2, h3]
    · intro h4 f2
      have hsat : Provider.satisfies ct ⟨D.name, D.type, .const v⟩ D = true :=
        satisfies_of_type_eq ct _ D rfl
      have hcand :
          get_providers ct ((s₀.addProvider cid ⟨D.name, D.type, .const v⟩).getProvs cid) D =
            [⟨D.name, D.type, .const v⟩] := by
        rw [getProvs_addProvider]
        unfold get_providers at h4 ⊢
        rw [List.filter_append, h4]
        simp [hsat]
      have hgp2 := get_provider_of_singleton ct _ D _ hcand
      show resolveC ct cc ((f2 + 1) + 1) tid cid D _ = _
      simp only [resolveC, hgp2]
      show getInstance ct cc (f2 + 1) tid (Getter.const v) _ = _
      simp only [getInstance]
  · intro fuel tid cid D s p T hp hg
    refine ⟨?_, ?_, by simp⟩
    · show resolveC ct cc ((fuel + 1) + 1) tid cid D s = _
      simp only [resolveC, hp, hg]
      simp only [getInstance, instantiate]
    · have hp2 : get_provider ct ((instantiate T [] s).2.getProvs cid) D = .ok (some p) := by
        rw [getProvs_instantiate]; exact hp
      show resolveC ct cc ((fuel + 1) + 1) tid cid D _ = _
      simp only [resolveC, hp2, hg]
      simp only [getInstance, instantiate]

/-- Concrete witness for the amended C2: resolving `Service` (no
registered provider satisfies it) auto-wires object `0` and registers the
`("service", Service)` const supplier; the repeat resolution returns the
same object `0` and the same state.  A transient supplier provider for
`Plugin` yields objects `0` and `1` — distinct — on two successive
resolutions. -/
theorem resolve_memoizes_and_transient_distinct_witness :
    resolveC ctApp {} 10 0 0 ⟨"service", .cls "Service", true⟩
        { containers := [(0, [])], nextCid := 1 } =
      (.ok (.obj 0),
       ({ nextId := 1, heap := [(0, ⟨.cls "Service", []⟩)],
          containers := [(0, [])], nextCid := 1 } : St).addProvider 0
         ⟨"service", .cls "Service", .const (.obj 0)⟩) ∧
    resolveC ctApp {} 10 0 0 ⟨"service", .cls "Service", true⟩
        (({ nextId := 1, heap := [(0, ⟨.cls "Service", []⟩)],
            containers := [(0, [])], nextCid := 1 } : St).addProvider 0
          ⟨"service", .cls "Service", .const (.obj 0)⟩) =
      (.ok (.obj 0),
       ({ nextId := 1, heap := [(0, ⟨.cls "Service", []⟩)],
          containers := [(0, [])], nextCid := 1 } : St).addProvider 0
         ⟨"service", .cls "Service", .const (.obj 0)⟩) ∧
    resolveC ctApp {} 10 0 0 ⟨"plugin", .cls "Plugin", true⟩
        { containers := [(0, [⟨"plugin", .cls "Plugin", .ctor (.cls "Plugin")⟩])],
          nextCid := 1 } =
      (.ok (.obj 0),
       (instantiate (.cls "Plugin") []
         { containers := [(0, [⟨"plugin", .cls "Plugin", .ctor (.cls "Plugin")⟩])],
           nextCid := 1 }).2) ∧
    Value.obj 0 ≠ Value.obj 1 := by
  refine ⟨?_, ?_, ?_, ?_⟩
  · exact ((resolve_memoizes_and_transient_distinct ctApp {}).1 9 0 0
      ⟨"service", .cls "Service", true⟩ { containers := [(0, [])], nextCid := 1 }
      (.obj 0)
      { nextId := 1, heap := [(0, ⟨.cls "Service", []⟩)],
        containers := [(0, [])], nextCid := 1 }
      rfl rfl rfl).1
  · exact ((resolve_memoizes_and_transient_distinct ctApp {}).1 9 0 0
      ⟨"service", .cls "Service", true⟩ { containers := [(0, [])], nextCid := 1 }
      (.obj 0)
      { nextId := 1, heap := [(0, ⟨.cls "Service", []⟩)],
        containers := [(0, [])], nextCid := 1 }
      rfl rfl rfl).2 rfl 8
  · exact ((resolve_memoizes_and_transient_distinct ctApp {}).2 8 0 0
      ⟨"plugin", .cls "Plugin", true⟩
      { containers := [(0, [⟨"plugin", .cls "Plugin", .ctor (.cls "Plugin")⟩])], nextCid := 1 }
      ⟨"plugin", .cls "Plugin", .ctor (.cls "Plugin")⟩ (.cls "Plugin") rfl rfl).1
  · exact ((resolve_memoizes_and_transient_distinct ctApp {}).2 8 0 0
      ⟨"plugin", .cls "Plugin", true⟩
      { containers := [(0, [⟨"plugin", .cls "Plugin", .ctor (.cls "Plugin")⟩])], nextCid := 1 }
      ⟨"plugin", .cls "Plugin", .ctor (.cls "Plugin")⟩ (.cls "Plugin") rfl rfl).2.2

/-! ## Claim C3: failure handling for constructor parameters -/

/-- **C3.**  During `autowire(t)`, a constructor parameter not supplied
explicitly and not satisfied by an existing provider is resolved
recursively; if that `resolve` raises a library error
(`AutowiredException` — an `AmbiguousDependencyException` raised during
the nested resolution arrives this way) and the parameter is required,
`autowire` raises `UnresolvableDependencyException` with the underlying
error preserved as its cause; if the parameter is not required, the
failure is silently swallowed and the parameter is omitted from the
constructor call (the constructed object's kwargs are exactly the
explicit ones). -/
theorem autowire_wraps_required_omits_optional (ct : ClassTable) (cc : ContextClass)
    (fuel tid cid : Nat) (t : Ty) (dep : Dependency)
    (explicitKw : List (String × Value)) (s s_e : St) (e : Err)
    (hmod : illegalModules.contains (moduleRoot ct t) = false)
    (hdeps : getDependenciesForType ct t = [dep])
    (hx : explicitKw.lookup dep.name = none)
    (hgp : get_provider ct (s.getProvs cid) dep = .ok none)
    (hres : resolveC ct cc (fuel + 1) tid cid dep s = (.error e, s_e))
    (hauto : e.isAutowiredException = true) :
    (dep.required = true →
      autowireC ct cc (fuel + 3) tid cid t explicitKw s =
        (.error (.unresolvableDependency dep.name e), s_e)) ∧
    (dep.required = false →
      autowireC ct cc (fuel + 3) tid cid t explicitKw s =
        (.ok (.obj s_e.nextId), (instantiate t explicitKw s_e).2)) := by
  constructor
  · intro hreq
    show autowireC ct cc ((fuel + 2) + 1) tid cid t explicitKw s = _
    simp only [autowireC, hmod, hdeps, Bool.false_eq_true, if_false]
    show (match autowireLoop ct cc ((fuel + 1) + 1) tid cid [dep] explicitKw s with
          | (.error e, s') => ((.error e : Except Err Value), s')
          | (.ok kw, s') =>
            let (v, s'') := instantiate t kw s'
            (.ok v, s'')) = _
    simp only [autowireLoop, hx, Option.isSome_none, Bool.false_eq_true, if_false, hgp,
      hres, hauto, hreq, if_true]
  · intro hreq
    show autowireC ct cc ((fuel + 2) + 1) tid cid t explicitKw s = _
    simp only [autowireC, hmod, Bool.false_eq_true, if_false, hdeps]
    show (match autowireLoop ct cc ((fuel + 1) + 1) tid cid [dep] explicitKw s with
          | (.error e, s') => ((.error e : Except Err Value), s')
          | (.ok kw, s') =>
            let (v, s'') := instantiate t kw s'
            (.ok v, s'')) = _
    simp only [autowireLoop, hx, Option.isSome_none, Bool.false_eq_true, if_false, hgp,
      hres, hauto, hreq, if_true, instantiate]

/-- Concrete witness for C3.  `Mid` needs `q: Plugin`, but two `Plugin`
providers named `a`/`b` make `q` ambiguous, so resolving a `Mid`
parameter fails with `AmbiguousDependencyException`.  For `NeedsMid`
(required `m: Mid`) autowire raises `UnresolvableDependencyException`
whose cause is that ambiguity; for `OptionalMid` (`m: Mid` with a
default) the failure is swallowed and the object is constructed with no
keyword arguments. -/
theorem autowire_wraps_required_omits_optional_witness :
    autowireC ctApp {} 9 0 0 (.cls "NeedsMid") [] stPlugins =
      (.error (.unresolvableDependency "m" (.ambiguousDependency "q")), stPlugins) ∧
    autowireC ctApp {} 9 0 0 (.cls "OptionalMid") [] stPlugins =
      (.ok (.obj 0), (instantiate (.cls "OptionalMid") [] stPlugins).2) := by
  constructor
  · exact (autowire_wraps_required_omits_optional ctApp {} 6 0 0 (.cls "NeedsMid")
      ⟨"m", .cls "Mid", true⟩ [] stPlugins stPlugins (.ambiguousDependency "q")
      rfl rfl rfl rfl rfl rfl).1 rfl
  · exact (autowire_wraps_required_omits_optional ctApp {} 6 0 0 (.cls "OptionalMid")
      ⟨"m", .cls "Mid", false⟩ [] stPlugins stPlugins (.ambiguousDependency "q")
      rfl rfl rfl rfl rfl rfl).2 rfl

/-! ## Claim C4: collective (sequence) resolution -/

theorem gatherElems_of_consts (ct : ClassTable) (cc : ContextClass) (tid : Nat) :
    ∀ (ps : List Provider) (vs : List Value) (fuel : Nat) (s : St),
      ps.length < fuel →
      ps.map Provider.getter = vs.map Getter.const →
      gatherElems ct cc fuel tid ps s = (.ok vs, s) := by
  intro ps
  induction ps with
  | nil =>
    intro vs fuel s hlen hmap
    have hvs : vs = [] := by
      cases vs with
      | nil => rfl
      | cons v vtl => simp at hmap
    subst hvs
    cases fuel with
    | zero => omega
    | succ f => simp [gatherElems]
  | cons p rest ih =>
    intro vs fuel s hlen hmap
    cases vs with
    | nil => simp at hmap
    | cons v vtl =>
      simp only [List.map_cons, List.cons.injEq] at hmap
      obtain ⟨hg, htl⟩ := hmap
      cases fuel with
      | zero => omega
      | succ f =>
        cases f with
        | zero => simp at hlen
        | succ f' =>
          have hrest := ih vtl (f' + 1) s (by simp at hlen ⊢; omega) htl
          show (match getInstance ct cc (f' + 1) tid p.getter s with
                | (.error e, s') => ((.error e : Except Err (List Value)), s')
                | (.ok v, s') =>
                  match gatherElems ct cc (f' + 1) tid rest s' with
                  | (.error e, s'') => (.error e, s'')
                  | (.ok vs, s'') => (.ok (v :: vs), s'')) = _
          rw [hg]
          show (match gatherElems ct cc (f' + 1) tid rest s with
                | (.error e, s'') => ((.error e : Except Err (List Value)), s'')
                | (.ok vs, s'') => (.ok (v :: vs), s'')) = _
          rw [hrest]

/-- **C4.**  When no provider satisfies a sequence-typed dependency
directly, `resolve` performs collective resolution: it gathers every
provider satisfying the element type, obtains one instance from each in
registration order, and wraps them in the requested sequence kind (stated
here for singleton providers: the result is exactly their stored values
in registration order, with no state change).  Concretely, two `Plugin`
providers registered as `PluginA` then `PluginB` yield the ordered
`list[Plugin]` value `[instanceOfA, instanceOfB]`; and resolving
`TuplePluginService`, whose required parameter is the unsupported
fixed-length 1-tuple `Tuple[Plugin]`, fails with
`UnresolvableDependencyException`. -/
theorem resolve_collective_sequences (ct : ClassTable) (cc : ContextClass) :
    (∀ fuel tid cid D s kind E vs,
      get_provider ct (s.getProvs cid) D = .ok none →
      get_sequence_type D.type = some (kind, E) →
      (get_providers ct (s.getProvs cid) ⟨D.name, E, true⟩).map Provider.getter =
        vs.map Getter.const →
      (get_providers ct (s.getProvs cid) ⟨D.name, E, true⟩).length < fuel →
      resolveC ct cc (fuel + 1) tid cid D s = (.ok (.seq kind vs), s)) ∧
    resolveC ctApp {} 10 0 0 ⟨"plugins", .listOf (.cls "Plugin"), true⟩ stPlugins =
      (.ok (.seq .list [.obj 100, .obj 101]), stPlugins) ∧
    resolveC ctApp {} 10 0 0 ⟨"svc", .cls "TuplePluginService", true⟩ stPlugins =
      (.error (.unresolvableDependency "plugins"
        (.illegalAutoWireType (.tupleFixed1 (.cls "Plugin")))), stPlugins) := by
  refine ⟨?_, rfl, rfl⟩
  intro fuel tid cid D s kind E vs hgp hseq hmap hlen
  simp only [resolveC, hgp, hseq,
    gatherElems_of_consts ct cc tid _ vs fuel s hlen hmap]

/-- Concrete witness for C4's quantified part, at the `PluginA`/`PluginB`
container: the two matching singleton providers are gathered in
registration order. -/
theorem resolve_collective_sequences_witness :
    resolveC ctApp {} 5 0 0 ⟨"plugins", .listOf (.cls "Plugin"), true⟩ stPlugins =
      (.ok (.seq .list [.obj 100, .obj 101]), stPlugins) :=
  (resolve_collective_sequences ctApp {}).1 4 0 0
    ⟨"plugins", .listOf (.cls "Plugin"), true⟩ stPlugins .list (.cls "Plugin")
    [.obj 100, .obj 101] rfl rfl rfl (by decide)

/-! ## Claim C8: constructor-parameter dependency extraction (corrected) -/

/-- Fixture: a container holding a single singleton `Service` provider. -/
def stService : St :=
  { containers := [(0, [⟨"service", .cls "Service", .const (.obj 7)⟩])], nextCid := 1 }

/-- **C8 counterexample.**  `Holder`'s parameter `x` has no annotation and
no default, so its dependency type falls back to `object` — which *every*
provider satisfies.  With a single registered `Service` provider,
auto-wiring `Holder` does **not** fail: it succeeds and passes that
provider's instance as `x`, refuting "resolving it fails rather than
producing a value". -/
theorem untyped_param_resolution_counterexample :
    autowireC ctApp {} 5 0 0 (.cls "Holder") [] stService =
      (.ok (.obj 0),
       { nextId := 1,
         heap := [(0, ⟨.cls "Holder", [("x", .obj 7)]⟩)],
         containers := [(0, [⟨"service", .cls "Service", .const (.obj 7)⟩])],
         nextCid := 1 }) := rfl

/-- **C8 (amended).**  `autowire(t)` builds one dependency per parameter
of `t`'s most-derived explicitly defined constructor: the declared
annotation when present; for an unannotated parameter with a default, the
runtime type of that default; for a parameter with neither, the fallback
type `object` — such a parameter is satisfied by any registered provider
(a single registered provider is injected), and only with no matching
provider does its resolution fail (auto-wiring `object` is illegal,
wrapped as `UnresolvableDependencyException` since the parameter is
required).  The `required` flag is true iff the parameter has no
default. -/
theorem dependencies_for_type_spec (ct : ClassTable) :
    (∀ n ps, getActualInit ct n = some ps →
      getDependenciesForType ct (.cls n) = ps.map dependencyOfParam) ∧
    (∀ n a dt, dependencyOfParam ⟨n, some a, dt⟩ = ⟨n, a, dt.isNone⟩) ∧
    (∀ n dt, dependencyOfParam ⟨n, none, some dt⟩ = ⟨n, dt, false⟩) ∧
    (∀ n, dependencyOfParam ⟨n, none, none⟩ = ⟨n, .cls "object", true⟩) ∧
    (∀ p : Param, (dependencyOfParam p).required = p.defaultType.isNone) ∧
    autowireC ctApp {} 5 0 0 (.cls "Holder") [] { containers := [(0, [])], nextCid := 1 } =
      (.error (.unresolvableDependency "x" (.illegalAutoWireType (.cls "object"))),
       { containers := [(0, [])], nextCid := 1 }) := by
  refine ⟨?_, ?_, ?_, ?_, ?_, rfl⟩
  · intro n ps h
    simp [getDependenciesForType, h]
  · intro n a dt
    cases dt <;> simp [dependencyOfParam]
  · intro n dt
    simp [dependencyOfParam]
  · intro n
    simp [dependencyOfParam]
  · intro p
    obtain ⟨n, a, dt⟩ := p
    cases dt <;> simp [dependencyOfParam]

/-- Concrete witness for C8's quantified part at `Holder` (one untyped,
defaultless parameter `x`). -/
theorem dependencies_for_type_spec_witness :
    getDependenciesForType ctApp (.cls "Holder") =
      [⟨"x", .cls "object", true⟩] ∧
    dependencyOfParam ⟨"x", none, none⟩ = ⟨"x", .cls "object", true⟩ := by
  constructor
  · rw [(dependencies_for_type_spec ctApp).1 "Holder" [⟨"x", none, none⟩] rfl,
      List.map_singleton, (dependencies_for_type_spec ctApp).2.2.2.1 "x"]
  · exact (dependencies_for_type_spec ctApp).2.2.2.1 "x"

/-! ## Claim C5: context construction order -/

theorem providedLoop_first_placeholder (ct : ClassTable) (cc : ContextClass)
    (fuel tid : Nat) :
    ∀ (fs : List String) (f : String) (rest : List String) (s : St),
      (∀ g ∈ fs, ∃ v, s.ctx.fields.lookup g = some (.val v) ∧ v.isProvidedPh = false) →
      s.ctx.fields.lookup f = some .providedPh →
      providedLoop ct cc (fuel + 1) tid (fs ++ f :: rest) s =
        (.error (.notProvided f), s) := by
  intro fs
  induction fs with
  | nil =>
    intro f rest s _ hf
    show providedLoop ct cc (fuel + 1) tid (f :: rest) s = _
    simp only [providedLoop, ctxGet, hf, Value.isProvidedPh, if_true]
  | cons g gs ih =>
    intro f rest s hvals hf
    obtain ⟨v, hv, hnp⟩ := hvals g (List.mem_cons_self g gs)
    show providedLoop ct cc (fuel + 1) tid (g :: (gs ++ f :: rest)) s = _
    simp only [providedLoop, ctxGet, hv, hnp, Bool.false_eq_true, if_false]
    exact ih f rest s (fun g' hg' => hvals g' (List.mem_cons_of_mem g hg')) hf

/-- Fixture: a context class with one eager auto-wired field and one
provided field. -/
def ccEager : ContextClass :=
  { fields := [("eager_svc", .auto { eager := true }, .cls "Service"),
               ("prov_val", .prov, .cls "Plugin")] }

/-- Fixture: the freshly allocated (pre-`__init__`) context instance. -/
def seCtx : St := { ctx := { fields := initFields ccEager } }

/-- **C5.**  Context construction runs the class's own constructor body
first, then forces every eager auto-wired field, then checks every
provided field, raising `NotProvidedException` if one still holds the
placeholder — even if that field is never read later.  In general, the
provided-field check read right after construction errors on the first
field still holding the placeholder (first conjunct).  Concretely: a
constructor body that assigns the provided field makes construction
succeed with the eager field auto-wired (object 0 allocated after the
body ran); a body that assigns nothing makes construction fail with
`NotProvidedException` for `prov_val`, *after* the eager field was
already resolved; and a body that itself assigns both fields yields a
construction with no allocation at all (the eager read finds the value
the body wrote — the body ran first). -/
theorem context_construction_order (ct : ClassTable) (cc : ContextClass) :
    (∀ (fuel tid : Nat) (fs : List String) (f : String) (rest : List String) (s : St),
      (∀ g ∈ fs, ∃ v, s.ctx.fields.lookup g = some (.val v) ∧ v.isProvidedPh = false) →
      s.ctx.fields.lookup f = some .providedPh →
      providedLoop ct cc (fuel + 1) tid (fs ++ f :: rest) s =
        (.error (.notProvided f), s)) ∧
    (newInit ctApp ccEager 10 0 (fun s => s.setField "prov_val" (.val (.obj 50))) seCtx).1 =
      .ok () ∧
    ((newInit ctApp ccEager 10 0 (fun s => s.setField "prov_val" (.val (.obj 50)))
        seCtx).2.ctx.fields.lookup "eager_svc") = some (.val (.obj 0)) ∧
    (newInit ctApp ccEager 10 0 id seCtx).1 = .error (.notProvided "prov_val") ∧
    ((newInit ctApp ccEager 10 0 id seCtx).2.ctx.fields.lookup "eager_svc") =
      some (.val (.obj 0)) ∧
    (newInit ctApp ccEager 10 0
        (fun s => (s.setField "eager_svc" (.val (.obj 50))).setField "prov_val"
          (.val (.obj 60))) seCtx) =
      (.ok (), { ctx := { fields := [("eager_svc", .val (.obj 50)),
                                     ("prov_val", .val (.obj 60))] } }) :=
  ⟨fun fuel tid => providedLoop_first_placeholder ct cc fuel tid, rfl, rfl, rfl, rfl, rfl⟩

/-- Concrete witness for C5's quantified conjunct: the provided check
performed right after the eager phase of the `id`-constructor run errors
on `prov_val`, which still holds the placeholder. -/
theorem context_construction_order_witness :
    providedLoop ctApp ccEager 10 0 ["prov_val"]
      { nextId := 1,
        heap := [(0, ⟨.cls "Service", []⟩)],
        containers := [(0, [⟨"eager_svc", .cls "Service", .prop "eager_svc"⟩,
                            ⟨"prov_val", .cls "Plugin", .prop "prov_val"⟩])],
        nextCid := 1,
        ctx := { fields := [("eager_svc", .val (.obj 0)), ("prov_val", .providedPh)],
                 memo := some 0 } } =
      (.error (.notProvided "prov_val"),
       { nextId := 1,
         heap := [(0, ⟨.cls "Service", []⟩)],
         containers := [(0, [⟨"eager_svc", .cls "Service", .prop "eager_svc"⟩,
                             ⟨"prov_val", .cls "Plugin", .prop "prov_val"⟩])],
         nextCid := 1,
         ctx := { fields := [("eager_svc", .val (.obj 0)), ("prov_val", .providedPh)],
                  memo := some 0 } }) :=
  (context_construction_order ctApp ccEager).1 9 0 [] "prov_val" [] _
    (by intro g hg; simp at hg) rfl

/-! ## Claim C6: transient vs. cached auto-wired fields -/

/-- Fixture: a context class with a transient auto-wired field and a
non-transient auto-wired sibling field of the same declared type. -/
def ccSibling : ContextClass :=
  { fields := [("transient_svc", .auto { transient := true }, .cls "Service"),
               ("cached_svc", .auto {}, .cls "Service")] }

def scSib : St := { ctx := { fields := initFields ccSibling } }

/-- First read of the transient field. -/
def sibRead1 : Except Err Value × St := ctxGet ctApp ccSibling 10 0 "transient_svc" scSib

/-- Second read of the transient field, from the state the first left. -/
def sibRead2 : Except Err Value × St := ctxGet ctApp ccSibling 10 0 "transient_svc" sibRead1.2

/-- First read of the cached sibling field (same thread). -/
def sibRead3 : Except Err Value × St := ctxGet ctApp ccSibling 10 0 "cached_svc" sibRead2.2

/-- Second read of the cached sibling field (same thread). -/
def sibRead4 : Except Err Value × St := ctxGet ctApp ccSibling 10 0 "cached_svc" sibRead3.2

/-- **C6.**  Two successive reads of the transient field return two
distinct freshly auto-wired objects (`0` then `1`) and leave the field
uncached (it still holds its `_Autowired` placeholder), while two
successive reads of the non-transient sibling of the same declared type,
from the same thread, return the identical object (`2`), constructed on
the first read and cached in the instance dict; the second read returns
it with the state unchanged. -/
theorem transient_fresh_cached_identical :
    sibRead1.1 = .ok (.obj 0) ∧
    sibRead2.1 = .ok (.obj 1) ∧
    Value.obj 0 ≠ Value.obj 1 ∧
    (sibRead2.2.ctx.fields.lookup "transient_svc") =
      some (.autowiredPh { transient := true }) ∧
    sibRead3.1 = .ok (.obj 2) ∧
    (sibRead3.2.ctx.fields.lookup "cached_svc") = some (.val (.obj 2)) ∧
    sibRead4 = (.ok (.obj 2), sibRead3.2) :=
  ⟨rfl, rfl, by simp, rfl, rfl, rfl, rfl⟩

/-! ## Claim C7: the derived container (corrected) -/

theorem lookup_updateAssoc {α : Type} (k : String) (v : α) :
    ∀ l : List (String × α), (updateAssoc k v l).lookup k = some v := by
  intro l
  induction l with
  | nil => simp [updateAssoc, List.lookup]
  | cons kv rest ih =>
    by_cases h : kv.1 = k
    · simp [updateAssoc, h, List.lookup]
    · have hbeq : (k == kv.1) = false := beq_eq_false_iff_ne.mpr fun hh => h hh.symm
      simp [updateAssoc, h, List.lookup, ih, hbeq]

theorem lookup_append_of_left_none {α : Type} (k : Nat) (l2 : List (Nat × α)) :
    ∀ l1 : List (Nat × α), l1.lookup k = none → (l1 ++ l2).lookup k = l2.lookup k := by
  intro l1
  induction l1 with
  | nil => simp
  | cons kv rest ih =>
    intro h
    simp only [List.lookup, List.cons_append] at h ⊢
    cases hk : (k == kv.1) with
    | true => simp [hk] at h
    | false => simp only [hk] at h ⊢; exact ih h

/-- Modelled from the spec's words (the claim's name rule): the property
name with a *single* leading underscore stripped.  The code instead uses
`lstrip("_")`, which strips them all; the two differ on names with two or
more leading underscores. -/
def stripSingleUnderscore (s : String) : String :=
  match s.toList with
  | '_' :: rest => String.mk rest
  | _ => s

/-- Fixture: a context class whose provided field is named
`__special__`.  (Dunder-style names are exempt from Python's private-name
mangling, so the name reaches the class dict verbatim.) -/
def ccU : ContextClass :=
  { fields := [("__special__", .prov, .cls "Plugin")] }

/-- **C7 counterexample.**  The claim predicts the provider name is the
property name with a *single* leading underscore stripped, i.e.
`_special__`; the code's `lstrip("_")` strips all of them and registers
the provider under `special__`. -/
theorem derived_provider_name_counterexample :
    (derivedProviders ccU).map Provider.name = ["special__"] ∧
    stripSingleUnderscore "__special__" = "_special__" ∧
    ("special__" : String) ≠ "_special__" :=
  ⟨rfl, rfl, by decide⟩

/-- **C7 (amended).**  A context's derived container is computed exactly
once: a memoized id is returned with the state untouched, and a first
access allocates a fresh container holding exactly one supplier-backed
provider per declared property and auto-wired/provided field — excluding
the `container` property itself — typed by the property and named after
it with **all** leading underscores stripped, whose getter reads that
property off the live context at the moment `get_instance` is called, so
a later reassignment of a provided field is reflected. -/
theorem derived_container_projection (ct : ClassTable) (cc : ContextClass) :
    (∀ s cid, s.ctx.memo = some cid → ctxContainer cc s = (cid, s)) ∧
    (∀ s : St, s.ctx.memo = none → s.containers.lookup s.nextCid = none →
      (ctxContainer cc s).1 = s.nextCid ∧
      (ctxContainer cc s).2.containers.lookup s.nextCid = some (derivedProviders cc) ∧
      (ctxContainer cc s).2.ctx.memo = some s.nextCid) ∧
    (∀ q : Provider, q ∈ derivedProviders cc ↔
      ∃ p ∈ ctxProperties cc, p.1 ≠ "container" ∧
        q = ⟨lstripUnderscores p.1, p.2, .prop p.1⟩) ∧
    (∀ (fuel tid : Nat) (s : St) (f : String) (v : Value),
      s.ctx.fields.lookup f = some (.val v) →
      getInstance ct cc (fuel + 2) tid (.prop f) s = (.ok v, s)) ∧
    (∀ (fuel tid : Nat) (s : St) (f : String) (v' : Value),
      getInstance ct cc (fuel + 2) tid (.prop f) (s.setField f (.val v')) =
        (.ok v', s.setField f (.val v'))) := by
  refine ⟨?_, ?_, ?_, ?_, ?_⟩
  · intro s cid h
    simp [ctxContainer, h]
  · intro s h hfresh
    refine ⟨by simp [ctxContainer, h], ?_, by simp [ctxContainer, h]⟩
    simp only [ctxContainer, h]
    exact (lookup_append_of_left_none s.nextCid _ s.containers hfresh).trans
      (by simp [List.lookup])
  · intro q
    simp only [derivedProviders, List.mem_map, List.mem_filter]
    constructor
    · rintro ⟨p, ⟨hp, hne⟩, rfl⟩
      exact ⟨p, hp, by simpa using hne, rfl⟩
    · rintro ⟨p, hp, hne, rfl⟩
      exact ⟨p, ⟨hp, by simpa using hne⟩, rfl⟩
  · intro fuel tid s f v h
    show getInstance ct cc ((fuel + 1) + 1) tid (.prop f) s = _
    simp only [getInstance, ctxGet, h]
  · intro fuel tid s f v'
    have h : (s.setField f (.val v')).ctx.fields.lookup f = some (.val v') := by
      simp [St.setField, lookup_updateAssoc]
    show getInstance ct cc ((fuel + 1) + 1) tid (.prop f) _ = _
    simp only [getInstance, ctxGet, h]

/-- Concrete witness for C7: the memoized container id `2` is returned
unchanged; a fresh context allocates container `0` holding exactly the
`special__` provider; the `__special__` supplier reads the live value
`9`, and after reassignment reads `11`. -/
theorem derived_container_projection_witness :
    ctxContainer ccU { nextCid := 3, ctx := { memo := some 2 } } =
      (2, { nextCid := 3, ctx := { memo := some 2 } }) ∧
    (ctxContainer ccU { ctx := { fields := initFields ccU } }).2.containers.lookup 0 =
      some (derivedProviders ccU) ∧
    (⟨"special__", .cls "Plugin", .prop "__special__"⟩ : Provider) ∈
      derivedProviders ccU ∧
    getInstance ctApp ccU 10 0 (.prop "__special__")
        { ctx := { fields := [("__special__", .val (.obj 9))] } } =
      (.ok (.obj 9), { ctx := { fields := [("__special__", .val (.obj 9))] } }) ∧
    getInstance ctApp ccU 10 0 (.prop "__special__")
        (St.setField { ctx := { fields := [("__special__", .val (.obj 9))] } }
          "__special__" (.val (.obj 11))) =
      (.ok (.obj 11),
       St.setField { ctx := { fields := [("__special__", .val (.obj 9))] } }
         "__special__" (.val (.obj 11))) :=
  ⟨(derived_container_projection ctApp ccU).1 _ 2 rfl,
   ((derived_container_projection ctApp ccU).2.1
      { ctx := { fields := initFields ccU } } rfl rfl).2.1,
   ((derived_container_projection ctApp ccU).2.2.1 _).mpr
     ⟨("__special__", .cls "Plugin"), by decide, by decide, rfl⟩,
   (derived_container_projection ctApp ccU).2.2.2.1 8 0 _ "__special__" (.obj 9) rfl,
   (derived_container_projection ctApp ccU).2.2.2.2 8 0
     { ctx := { fields := [("__special__", .val (.obj 9))] } } "__special__" (.obj 11)⟩

/-! ## Claim C10: the double-checked per-field lock

The normal (cached, non-transient, non-thread-local) branch of the
context's `__getattribute__` is, per thread: (1) read the field without
the lock — a cached value is returned at once; (2) otherwise acquire the
field's lock, (3) re-read the field (another thread may have resolved it
while this one waited), (4) if still the placeholder, autowire (modelled
as one atomic allocation, since it happens entirely under the lock) and
store the value, (5) release the lock and return.  The transition system
below interleaves any number of threads running this protocol on one
field of one context instance. -/

/-- Per-thread program counter in the double-checked locking protocol. -/
inductive TPC where
  | start
  | waitLock
  | reRead
  | constructing
  | unlocking (v : Nat)
  | finished (v : Nat)
deriving DecidableEq, Repr

/-- Shared state: each thread's position, the lock holder, the field slot
(`none` = still the `_Autowired` placeholder), the allocator, and a
counter of how many times the field was constructed. -/
structure LockSt where
  phase : Nat → TPC
  holder : Option Nat
  slot : Option Nat
  allocNext : Nat
  constructions : Nat

def lockInit : LockSt :=
  { phase := fun _ => .start, holder := none, slot := none,
    allocNext := 0, constructions := 0 }

/-- One interleaving step of the protocol (thread `t` moves). -/
inductive LStep : LockSt → LockSt → Prop where
  | readHit (s : LockSt) (t v : Nat) :
      s.phase t = .start → s.slot = some v →
      LStep s { s with phase := Function.update s.phase t (.finished v) }
  | readMiss (s : LockSt) (t : Nat) :
      s.phase t = .start → s.slot = none →
      LStep s { s with phase := Function.update s.phase t .waitLock }
  | acquire (s : LockSt) (t : Nat) :
      s.phase t = .waitLock → s.holder = none →
      LStep s { s with holder := some t, phase := Function.update s.phase t .reRead }
  | reReadHit (s : LockSt) (t v : Nat) :
      s.phase t = .reRead → s.slot = some v →
      LStep s { s with phase := Function.update s.phase t (.unlocking v) }
  | reReadMiss (s : LockSt) (t : Nat) :
      s.phase t = .reRead → s.slot = none →
      LStep s { s with phase := Function.update s.phase t .constructing }
  | constructDone (s : LockSt) (t : Nat) :
      s.phase t = .constructing →
      LStep s { s with slot := some s.allocNext, allocNext := s.allocNext + 1,
                       constructions := s.constructions + 1,
                       phase := Function.update s.phase t (.unlocking s.allocNext) }
  | release (s : LockSt) (t v : Nat) :
      s.phase t = .unlocking v →
      LStep s { s with holder := none, phase := Function.update s.phase t (.finished v) }

/-- States reachable from the all-threads-at-`start` initial state. -/
inductive LReach : LockSt → Prop where
  | init : LReach lockInit
  | step {s s' : LockSt} : LReach s → LStep s s' → LReach s'

/-- The phases a thread only occupies while holding the lock. -/
def TPC.inCrit : TPC → Prop
  | .reRead => True
  | .constructing => True
  | .unlocking _ => True
  | _ => False

/-- Inductive invariant: lock discipline, the construction count tracks
whether the slot is filled, a constructing thread saw the empty slot, and
every determined value equals the slot's content. -/
def LockInv (s : LockSt) : Prop :=
  (∀ t, (s.phase t).inCrit → s.holder = some t) ∧
  (s.constructions = if s.slot.isSome then 1 else 0) ∧
  (∀ t, s.phase t = .constructing → s.slot = none) ∧
  (∀ t v, s.phase t = .unlocking v → s.slot = some v) ∧
  (∀ t v, s.phase t = .finished v → s.slot = some v)

theorem lockInv_init : LockInv lockInit := by
  refine ⟨?_, rfl, ?_, ?_, ?_⟩ <;> intro t <;> simp [lockInit, TPC.inCrit]

theorem lockInv_step {s s' : LockSt} (hinv : LockInv s) (hstep : LStep s s') :
    LockInv s' := by
  obtain ⟨inv1, inv2, inv3, inv4, inv5⟩ := hinv
  cases hstep with
  | readHit t v hpc hslot =>
    refine ⟨?_, inv2, ?_, ?_, ?_⟩
    · intro t' hc
      by_cases ht : t' = t
      · subst ht; simp only [Function.update_same] at hc; exact absurd hc (by simp [TPC.inCrit])
      · simp only [Function.update_noteq ht] at hc; exact inv1 t' hc
    · intro t' h'
      by_cases ht : t' = t
      · subst ht; simp only [Function.update_same] at h'; exact absurd h' (by simp)
      · simp only [Function.update_noteq ht] at h'; exact inv3 t' h'
    · intro t' v' h'
      by_cases ht : t' = t
      · subst ht; simp only [Function.update_same] at h'; exact absurd h' (by simp)
      · simp only [Function.update_noteq ht] at h'; exact inv4 t' v' h'
    · intro t' v' h'
      by_cases ht : t' = t
      · subst ht; simp only [Function.update_same] at h'
        cases h'; exact hslot
      · simp only [Function.update_noteq ht] at h'; exact inv5 t' v' h'
  | readMiss t hpc hslot =>
    refine ⟨?_, inv2, ?_, ?_, ?_⟩
    · intro t' hc
      by_cases ht : t' = t
      · subst ht; simp only [Function.update_same] at hc; exact absurd hc (by simp [TPC.inCrit])
      · simp only [Function.update_noteq ht] at hc; exact inv1 t' hc
    · intro t' h'
      by_cases ht : t' = t
      · subst ht; simp only [Function.update_same] at h'; exact absurd h' (by simp)
      · simp only [Function.update_noteq ht] at h'; exact inv3 t' h'
    · intro t' v' h'
      by_cases ht : t' = t
      · subst ht; simp only [Function.update_same] at h'; exact absurd h' (by simp)
      · simp only [Function.update_noteq ht] at h'; exact inv4 t' v' h'
    · intro t' v' h'
      by_cases ht : t' = t
      · subst ht; simp only [Function.update_same] at h'; exact absurd h' (by simp)
      · simp only [Function.update_noteq ht] at h'; exact inv5 t' v' h'
  | acquire t hpc hfree =>
    refine ⟨?_, inv2, ?_, ?_, ?_⟩
    · intro t' hc
      by_cases ht : t' = t
      · subst ht; rfl
      · simp only [Function.update_noteq ht] at hc
        exact absurd (inv1 t' hc) (by simp [hfree])
    · intro t' h'
      by_cases ht : t' = t
      · subst ht; simp only [Function.update_same] at h'; exact absurd h' (by simp)
      · simp only [Function.update_noteq ht] at h'; exact inv3 t' h'
    · intro t' v' h'
      by_cases ht : t' = t
      · subst ht; simp only [Function.update_same] at h'; exact absurd h' (by simp)
      · simp only [Function.update_noteq ht] at h'; exact inv4 t' v' h'
    · intro t' v' h'
      by_cases ht : t' = t
      · subst ht; simp only [Function.update_same] at h'; exact absurd h' (by simp)
      · simp only [Function.update_noteq ht] at h'; exact inv5 t' v' h'
  | reReadHit t v hpc hslot =>
    refine ⟨?_, inv2, ?_, ?_, ?_⟩
    · intro t' hc
      by_cases ht : t' = t
      · subst ht; exact inv1 _ (by rw [hpc]; trivial)
      · simp only [Function.update_noteq ht] at hc; exact inv1 t' hc
    · intro t' h'
      by_cases ht : t' = t
      · subst ht; simp only [Function.update_same] at h'; exact absurd h' (by simp)
      · simp only [Function.update_noteq ht] at h'; exact inv3 t' h'
    · intro t' v' h'
      by_cases ht : t' = t
      · subst ht; simp only [Function.update_same] at h'
        cases h'; exact hslot
      · simp only [Function.update_noteq ht] at h'; exact inv4 t' v' h'
    · intro t' v' h'
      by_cases ht : t' = t
      · subst ht; simp only [Function.update_same] at h'; exact absurd h' (by simp)
      · simp only [Function.update_noteq ht] at h'; exact inv5 t' v' h'
  | reReadMiss t hpc hslot =>
    refine ⟨?_, inv2, ?_, ?_, ?_⟩
    · intro t' hc
      by_cases ht : t' = t
      · subst ht; exact inv1 _ (by rw [hpc]; trivial)
      · simp only [Function.update_noteq ht] at hc; exact inv1 t' hc
    · intro t' h'
      by_cases ht : t' = t
      · subst ht; exact hslot
      · simp only [Function.update_noteq ht] at h'; exact inv3 t' h'
    · intro t' v' h'
      by_cases ht : t' = t
      · subst ht; simp only [Function.update_same] at h'; exact absurd h' (by simp)
      · simp only [Function.update_noteq ht] at h'; exact inv4 t' v' h'
    · intro t' v' h'
      by_cases ht : t' = t
      · subst ht; simp only [Function.update_same] at h'; exact absurd h' (by simp)
      · simp only [Function.update_noteq ht] at h'
        exact absurd (inv5 t' v' h') (by simp [hslot])
  | constructDone t hpc =>
    have hslot : s.slot = none := inv3 t hpc
    have hlock : s.holder = some t := inv1 t (by rw [hpc]; trivial)
    refine ⟨?_, ?_, ?_, ?_, ?_⟩
    · intro t' hc
      by_cases ht : t' = t
      · subst ht; exact hlock
      · simp only [Function.update_noteq ht] at hc; exact inv1 t' hc
    · show s.constructions + 1 = _
      rw [inv2, hslot]; simp
    · intro t' h'
      by_cases ht : t' = t
      · subst ht; simp only [Function.update_same] at h'; exact absurd h' (by simp)
      · simp only [Function.update_noteq ht] at h'
        -- a second thread in `constructing` would also hold the lock
        have := inv1 t' (by rw [h']; trivial)
        rw [hlock] at this
        exact absurd (Option.some.inj this).symm ht
    · intro t' v' h'
      by_cases ht : t' = t
      · subst ht; simp only [Function.update_same] at h'
        cases h'; rfl
      · simp only [Function.update_noteq ht] at h'
        exact absurd (inv4 t' v' h') (by simp [hslot])
    · intro t' v' h'
      by_cases ht : t' = t
      · subst ht; simp only [Function.update_same] at h'; exact absurd h' (by simp)
      · simp only [Function.update_noteq ht] at h'
        exact absurd (inv5 t' v' h') (by simp [hslot])
  | release t v hpc =>
    have hv := inv4 t v hpc
    refine ⟨?_, inv2, ?_, ?_, ?_⟩
    · intro t' hc
      by_cases ht : t' = t
      · subst ht; simp only [Function.update_same] at hc
        exact absurd hc (by simp [TPC.inCrit])
      · simp only [Function.update_noteq ht] at hc
        have h1 := inv1 t' hc
        have h2 := inv1 t (by rw [hpc]; trivial)
        rw [h2] at h1
        exact absurd (Option.some.inj h1).symm ht
    · intro t' h'
      by_cases ht : t' = t
      · subst ht; simp only [Function.update_same] at h'; exact absurd h' (by simp)
      · simp only [Function.update_noteq ht] at h'; exact inv3 t' h'
    · intro t' v' h'
      by_cases ht : t' = t
      · subst ht; simp only [Function.update_same] at h'; exact absurd h' (by simp)
      · simp only [Function.update_noteq ht] at h'; exact inv4 t' v' h'
    · intro t' v' h'
      by_cases ht : t' = t
      · subst ht; simp only [Function.update_same] at h'
        cases h'; exact hv
      · simp only [Function.update_noteq ht] at h'; exact inv5 t' v' h'

theorem lockInv_reach {s : LockSt} (h : LReach s) : LockInv s := by
  induction h with
  | init => exact lockInv_init
  | step _ hstep ih => exact lockInv_step ih hstep

/-- **C10.**  Under the per-field double-checked lock protocol, in every
reachable interleaving of any number of threads, the field is constructed
at most once; and whenever two threads have both completed their read,
they observed the identical object and exactly one construction ever
happened. -/
theorem double_checked_lock_exactly_once :
    (∀ s, LReach s → s.constructions ≤ 1) ∧
    (∀ s, LReach s → ∀ t1 t2 v1 v2,
      s.phase t1 = .finished v1 → s.phase t2 = .finished v2 →
      v1 = v2 ∧ s.constructions = 1) := by
  constructor
  · intro s h
    have hinv := lockInv_reach h
    rw [hinv.2.1]
    split <;> omega
  · intro s h t1 t2 v1 v2 h1 h2
    have hinv := lockInv_reach h
    have e1 := hinv.2.2.2.2 t1 v1 h1
    have e2 := hinv.2.2.2.2 t2 v2 h2
    rw [e1] at e2
    refine ⟨Option.some.inj e2, ?_⟩
    rw [hinv.2.1, e1]
    rfl

/-- Concrete witness for C10: thread 0 misses, acquires, re-reads,
constructs object 0 and releases; thread 1 then hits the cache.  Both
finish with object 0 and exactly one construction happened. -/
def lockDemoFinal : LockSt :=
  { phase := Function.update (Function.update (Function.update (Function.update
      (Function.update (Function.update (fun _ => TPC.start) 0 TPC.waitLock)
        0 TPC.reRead) 0 TPC.constructing) 0 (TPC.unlocking 0)) 0 (TPC.finished 0))
      1 (TPC.finished 0),
    holder := none, slot := some 0, allocNext := 1, constructions := 1 }

theorem double_checked_lock_exactly_once_witness :
    lockDemoFinal.constructions ≤ 1 ∧
    (0 : Nat) = 0 ∧ lockDemoFinal.constructions = 1 :=
  have hreach : LReach lockDemoFinal :=
    LReach.step (LReach.step (LReach.step (LReach.step (LReach.step (LReach.step
      LReach.init
      (LStep.readMiss _ 0 rfl rfl))
      (LStep.acquire _ 0 rfl rfl))
      (LStep.reReadMiss _ 0 rfl rfl))
      (LStep.constructDone _ 0 rfl))
      (LStep.release _ 0 0 rfl))
      (LStep.readHit _ 1 0 rfl rfl)
  ⟨double_checked_lock_exactly_once.1 lockDemoFinal hreach,
   (double_checked_lock_exactly_once.2 lockDemoFinal hreach 0 1 0 0 rfl rfl).1,
   (double_checked_lock_exactly_once.2 lockDemoFinal hreach 0 1 0 0 rfl rfl).2⟩

end Autowired
